import Mathlib

/-!
Verification of the obsidian-p4 plugin core (a Perforce command bridge for an
editor-hosted vault).  The developments below are a shallow embedding of the
TypeScript sources: `src/p4Manager.ts` (command bridge and repository model),
the plugin class and its edit guard (`handleFileModify`, caches), and the
blame provider (`P4BlameProvider`).  Strings are embedded as `List Char`
(named `Str` below) so that the JavaScript string operations used by the code
(`startsWith`, `endsWith`, `includes`, `toLowerCase`, `replace(/\\/g,"/")`,
`trim`, `parseInt`) become executable Lean functions with the same behaviour
on the inputs the code feeds them.
-/

/-- Strings of the embedded program: lists of characters. -/
abbrev Str := List Char

/-- One character of `s.replace(/\\/g, "/")`: a backslash becomes a slash. -/
def normSlashChar (c : Char) : Char := if c = '\\' then '/' else c

/-- Embedding of `s.replace(/\\/g, "/")` (slash normalization). -/
def normSlash (s : Str) : Str := s.map normSlashChar

/-- One character of JavaScript `toLowerCase` on the ASCII range (the only
characters the path comparisons in the source ever lowercase). -/
def jsLowerChar : Char → Char
  | 'A' => 'a'
  | 'B' => 'b'
  | 'C' => 'c'
  | 'D' => 'd'
  | 'E' => 'e'
  | 'F' => 'f'
  | 'G' => 'g'
  | 'H' => 'h'
  | 'I' => 'i'
  | 'J' => 'j'
  | 'K' => 'k'
  | 'L' => 'l'
  | 'M' => 'm'
  | 'N' => 'n'
  | 'O' => 'o'
  | 'P' => 'p'
  | 'Q' => 'q'
  | 'R' => 'r'
  | 'S' => 's'
  | 'T' => 't'
  | 'U' => 'u'
  | 'V' => 'v'
  | 'W' => 'w'
  | 'X' => 'x'
  | 'Y' => 'y'
  | 'Z' => 'z'
  | c => c

/-- Embedding of JavaScript `s.toLowerCase()`. -/
def lowerStr (s : Str) : Str := s.map jsLowerChar

/-- JavaScript `\s` whitespace class (the members that matter for the inputs
the code handles). -/
def jsWs (c : Char) : Bool :=
  c = ' ' || c = '\t' || c = '\n' || c = '\r' || c = '\x0b' || c = '\x0c'

/-- Embedding of JavaScript `s.trim()`. -/
def trimStr (s : Str) : Str :=
  ((s.dropWhile jsWs).reverse.dropWhile jsWs).reverse

/-- Embedding of JavaScript `s.startsWith(p)` (second argument the pattern). -/
def startsWithJS {α : Type} [DecidableEq α] : List α → List α → Bool
  | _, [] => true
  | [], _ :: _ => false
  | a :: s, b :: p => if a = b then startsWithJS s p else false

/-- Embedding of JavaScript `s.endsWith(p)`. -/
def endsWithJS {α : Type} [DecidableEq α] (s p : List α) : Bool :=
  startsWithJS s.reverse p.reverse

/-- Embedding of JavaScript `s.includes(p)` (substring test). -/
def jsIncludes {α : Type} [DecidableEq α] : List α → List α → Bool
  | [], needle => needle.isEmpty
  | a :: t, needle => startsWithJS (a :: t) needle || jsIncludes t needle

/-- Value of a string of decimal digits. -/
def digitsToNat (ds : Str) : Nat :=
  ds.foldl (fun a c => a * 10 + (c.toNat - 48)) 0

/-- Leading run of decimal digits of `s`, as a number; `none` when `s` does
not start with a digit. -/
def leadDigits (s : Str) : Option Nat :=
  let ds := s.takeWhile Char.isDigit
  if ds.isEmpty then none else some (digitsToNat ds)

/-- Embedding of JavaScript `parseInt(s, 10)`: skip leading whitespace, an
optional sign, then the leading run of digits; `none` is `NaN`. -/
def parseIntJS (s : Str) : Option Int :=
  match s.dropWhile (fun c => jsWs c) with
  | '-' :: r => (leadDigits r).map (fun n => -(n : Int))
  | '+' :: r => (leadDigits r).map (fun n => (n : Int))
  | r => (leadDigits r).map (fun n => (n : Int))

/-- JavaScript truthiness of an optional string (`undefined` and `""` are
falsy). -/
def jsTruthy (o : Option Str) : Bool :=
  match o with
  | some s => !s.isEmpty
  | none => false

/-- Embedding of the JavaScript idiom `o || d` on optional strings. -/
def jsOrStr (o : Option Str) (d : Str) : Str :=
  match o with
  | some s => if s.isEmpty then d else s
  | none => d

/-!
Path-segment model for `toAbsolutePath` / `toVaultPath` (p4Manager.ts 163-176).
`toAbsolutePath(vaultPath)` is `path.join(this.vaultPath, vaultPath)` and
`toVaultPath(absolutePath)` is `normalizePath(path.relative(this.vaultPath,
absolutePath))`.  Node's `path.relative` and `path.join` operate on the
segment decomposition of the paths: `relative` drops the shared leading
segments and prepends one `..` per remaining segment of the base, and `join`
concatenates and then normalizes, resolving `.`, `..` and empty segments.
Obsidian's `normalizePath` only normalizes separators and strips leading and
trailing slashes, which the segment representation already abstracts (it
keeps `..` segments).  Paths are embedded here as lists of segments.
-/

/-- The `..` path segment. -/
def dotdot : Str := ['.', '.']

/-- The `.` path segment. -/
def dotSeg : Str := ['.']

/-- Length of the shared leading run of two segment lists (used by
`path.relative`). -/
def sharedLead : List Str → List Str → Nat
  | a :: t1, b :: t2 => if a = b then sharedLead t1 t2 + 1 else 0
  | _, _ => 0

/-- Segment-level embedding of `path.relative(fromP, toP)`. -/
def relSegs (fromP toP : List Str) : List Str :=
  List.replicate (fromP.length - sharedLead fromP toP) dotdot ++
    toP.drop (sharedLead fromP toP)

/-- Segment-level embedding of `path.join(base, rel)`: append and normalize,
a `..` segment popping the last segment of the accumulated path. -/
def joinSegs : List Str → List Str → List Str
  | base, [] => base
  | base, s :: rest =>
    if s = dotdot then joinSegs base.dropLast rest
    else if s = dotSeg ∨ s = [] then joinSegs base rest
    else joinSegs (base ++ [s]) rest

/-- Embedding of `P4Manager.toVaultPath` (p4Manager.ts 173-176) at segment
level: `normalizePath(path.relative(vaultPath, absolutePath))`. -/
def toVaultPath (root p : List Str) : List Str := relSegs root p

/-- Embedding of `P4Manager.toAbsolutePath` (p4Manager.ts 166-168) at segment
level: `path.join(vaultPath, vaultRelative)`. -/
def toAbsolutePath (root rel : List Str) : List Str := joinSegs root rel

theorem sharedLead_le_left (a b : List Str) : sharedLead a b ≤ a.length := by
  induction a generalizing b with
  | nil => simp [sharedLead]
  | cons x t ih =>
    cases b with
    | nil => simp [sharedLead]
    | cons y u =>
      by_cases h : x = y
      · simpa [sharedLead, h] using ih u
      · simp [sharedLead, h]

theorem take_sharedLead (a b : List Str) :
    a.take (sharedLead a b) = b.take (sharedLead a b) := by
  induction a generalizing b with
  | nil => simp [sharedLead]
  | cons x t ih =>
    cases b with
    | nil => simp [sharedLead]
    | cons y u =>
      by_cases h : x = y
      · simp [sharedLead, h, ih u]
      · simp [sharedLead, h]

theorem joinSegs_append (xs : List Str) (base ys : List Str) :
    joinSegs base (xs ++ ys) = joinSegs (joinSegs base xs) ys := by
  induction xs generalizing base with
  | nil => simp [joinSegs]
  | cons s rest ih =>
    by_cases h1 : s = dotdot
    · simp [joinSegs, h1, ih]
    · by_cases h2 : s = dotSeg ∨ s = []
      · simp [joinSegs, h1, h2, ih]
      · simp [joinSegs, h1, h2, ih]

theorem joinSegs_dotdots (m : Nat) (base : List Str) :
    joinSegs base (List.replicate m dotdot) = base.take (base.length - m) := by
  induction m generalizing base with
  | zero => simp [joinSegs]
  | succ k ih =>
    have hdd : joinSegs base (List.replicate (k + 1) dotdot)
        = joinSegs base.dropLast (List.replicate k dotdot) := by
      simp [List.replicate_succ, joinSegs]
    rw [hdd, ih]
    rw [List.length_dropLast, List.dropLast_eq_take, List.take_take]
    congr 1
    omega

theorem joinSegs_plain (rest : List Str) (base : List Str)
    (h : ∀ s ∈ rest, ¬ s = dotdot ∧ ¬ s = dotSeg ∧ ¬ s = []) :
    joinSegs base rest = base ++ rest := by
  induction rest generalizing base with
  | nil => simp [joinSegs]
  | cons s t ih =>
    have hs := h s (List.mem_cons_self s t)
    have ht : ∀ x ∈ t, ¬ x = dotdot ∧ ¬ x = dotSeg ∧ ¬ x = [] :=
      fun x hx => h x (List.mem_cons_of_mem s hx)
    have : ¬ (s = dotSeg ∨ s = []) := by
      intro hc
      rcases hc with hc | hc
      · exact hs.2.1 hc
      · exact hs.2.2 hc
    simp [joinSegs, hs.1, this, ih _ ht]

/-- C8 (amended): the round trip `toAbsolute(toVaultRelative(p))` reproduces
`p` (at segment level, i.e. modulo slash normalization) for every proper
path `p`, whether or not `p` lies under the working-copy root: the
translation of a path outside the root is a defined `..`-relative path, not
a rejection, and joining it back onto the root still reproduces `p`. -/
theorem toAbsolutePath_toVaultPath (root p : List Str)
    (hp : ∀ s ∈ p, ¬ s = dotdot ∧ ¬ s = dotSeg ∧ ¬ s = []) :
    toAbsolutePath root (toVaultPath root p) = p := by
  unfold toAbsolutePath toVaultPath relSegs
  rw [joinSegs_append, joinSegs_dotdots]
  have hk : sharedLead root p ≤ root.length := sharedLead_le_left root p
  have hsub : root.length - (root.length - sharedLead root p) = sharedLead root p := by
    omega
  rw [hsub]
  rw [joinSegs_plain (p.drop (sharedLead root p)) _
    (fun s hs => hp s (List.mem_of_mem_drop hs))]
  rw [take_sharedLead root p]
  exact List.take_append_drop _ p

/-- C8 witness: the round-trip theorem applied to a concrete root and a
concrete path under it. -/
theorem toAbsolutePath_toVaultPath_witness :
    toAbsolutePath [("home").toList, ("vault").toList]
      (toVaultPath [("home").toList, ("vault").toList]
        [("home").toList, ("vault").toList, ("notes.md").toList])
      = [("home").toList, ("vault").toList, ("notes.md").toList] :=
  toAbsolutePath_toVaultPath _ _ (by decide)

/-- C8 counterexample: for a concrete path outside the working-copy root the
translation `toVaultPath` is neither rejected nor undefined: it produces the
(nonempty) `..`-relative path `["..", "elsewhere", "n.md"]`, and the round
trip still reproduces the path. -/
theorem toVaultPath_outside_root_defined :
    startsWithJS [("home").toList, ("elsewhere").toList, ("n.md").toList]
        [("home").toList, ("vault").toList] = false
    ∧ toVaultPath [("home").toList, ("vault").toList]
        [("home").toList, ("elsewhere").toList, ("n.md").toList]
      = [dotdot, ("elsewhere").toList, ("n.md").toList]
    ∧ ¬ toVaultPath [("home").toList, ("vault").toList]
        [("home").toList, ("elsewhere").toList, ("n.md").toList] = []
    ∧ toAbsolutePath [("home").toList, ("vault").toList]
        (toVaultPath [("home").toList, ("vault").toList]
          [("home").toList, ("elsewhere").toList, ("n.md").toList])
      = [("home").toList, ("elsewhere").toList, ("n.md").toList] := by
  exact ⟨by decide, by decide, by decide, by decide⟩

/-!
Client-path translation and the opened-files query (`P4Manager.getOpenedFiles`,
p4Manager.ts 258-349).  A `clientFile` of the form `//clientName/rest` is
translated to `clientRoot + "/" + rest` by locating the first slash after the
leading `//`; any other form is kept as-is.  The query then keeps only records
whose translated absolute path, lowercased, starts with the lowercased,
slash-normalized vault path.
-/

theorem jsLowerChar_ne_backslash (c : Char) (h : ¬ c = '\\') :
    ¬ jsLowerChar c = '\\' := by
  unfold jsLowerChar
  split <;> first | decide | exact h

theorem lowerStr_normSlash_no_backslash (s : Str) :
    ∀ c ∈ lowerStr (normSlash s), ¬ c = '\\' := by
  intro c hc
  simp only [lowerStr, normSlash, List.map_map, List.mem_map] at hc
  obtain ⟨x, _, hx⟩ := hc
  subst hx
  apply jsLowerChar_ne_backslash
  unfold normSlashChar
  by_cases hb : x = '\\'
  · simp [hb]
  · simp [hb]

/-- If the lowercased string starts with a backslash-free pattern, then so
does the lowercased slash-normalized string: the matched region cannot have
contained a backslash. -/
theorem startsWithJS_lower_norm (p : Str) (s : Str)
    (hp : ∀ c ∈ p, ¬ c = '\\')
    (h : startsWithJS (lowerStr s) p = true) :
    startsWithJS (lowerStr (normSlash s)) p = true := by
  induction p generalizing s with
  | nil => simp [startsWithJS]
  | cons b p2 ih =>
    cases s with
    | nil => simp [lowerStr, startsWithJS] at h
    | cons a s2 =>
      simp only [lowerStr, normSlash, List.map_cons, startsWithJS] at h ⊢
      by_cases hab : jsLowerChar a = b
      · have hane : ¬ a = '\\' := by
          intro heq
          subst heq
          exact hp b (List.mem_cons_self b p2) (by rw [← hab]; decide)
        have hnorm : normSlashChar a = a := by simp [normSlashChar, hane]
        rw [hnorm]
        simp only [hab, if_true] at h ⊢
        exact ih s2 (fun c hc => hp c (List.mem_cons_of_mem b hc)) h
      · simp [hab] at h

/-- Changelist identifiers: the synthesized `"default"` changelist or a
numbered one. -/
inductive CLId : Type
  | default : CLId
  | num (n : Int) : CLId
deriving DecidableEq

/-- Record shape of a `p4 opened` JSON line (p4Manager.ts 259-267). -/
structure OpenedJson : Type where
  depotFile : Option Str
  clientFile : Option Str
  action : Option Str
  change : Option Str
  type : Option Str
  rev : Option Str
  haveRev : Option Str
deriving DecidableEq

/-- Normalized opened-file record (`P4FileStatus` of types.ts). -/
structure FileStatusM : Type where
  depotFile : Str
  clientFile : Str
  vaultPath : Str
  action : Str
  changelist : CLId
  type : Option Str
  rev : Option (Option Int)
  haveRev : Option (Option Int)
deriving DecidableEq

/-- Embedding of the `//clientName/rest -> clientRoot/rest` translation used
by `getOpenedFiles`, `getHaveFiles` and `getConflicts` (p4Manager.ts
296-304): strip up to the first slash after the leading `//` and reattach
the (slash-normalized) client root. -/
def translateClientFile (clientFile clientRootN : Str) : Str :=
  match clientFile with
  | '/' :: '/' :: after =>
    match after.findIdx? (fun c => c = '/') with
    | some i => clientRootN ++ '/' :: after.drop (i + 1)
    | none => '/' :: '/' :: after
  | other => other

/-- Embedding of `item.change` handling in `getOpenedFiles` (p4Manager.ts
315-322): `"default"` (or a missing, empty or non-positive value) stays the
default changelist, a positive parse becomes a numbered one. -/
def parseChangelistField (change : Option Str) : CLId :=
  match change with
  | some c =>
    if c.isEmpty then CLId.default
    else if c = ("default").toList then CLId.default
    else
      match parseIntJS c with
      | some n => if 0 < n then CLId.num n else CLId.default
      | none => CLId.default
  | none => CLId.default

/-- Embedding of `item.rev ? parseInt(item.rev, 10) : undefined`; the inner
`none` is `NaN`. -/
def optNum (o : Option Str) : Option (Option Int) :=
  match o with
  | some s => if s.isEmpty then none else some (parseIntJS s)
  | none => none

/-- Segment decomposition of a slash-normalized character-level path,
dropping empty segments (as Obsidian's `normalizePath` collapses separators). -/
def segsOf (s : Str) : List Str :=
  ((normSlash s).splitOn '/').filter (fun seg => !seg.isEmpty)

/-- Character-level bridge for `toVaultPath` (p4Manager.ts 173-176): compute
`path.relative(vaultPath, absolutePath)` at segment level and re-join the
segments with slashes. -/
def toVaultPathBridge (vault absolutePath : Str) : Str :=
  List.intercalate ['/'] (relSegs (segsOf vault) (segsOf absolutePath))

/-- Embedding of `P4Manager.getOpenedFiles` (p4Manager.ts 258-349), as a
function of the vault path, the client root reported by `p4 info`, and the
records returned by the `p4 opened` query.  The error branch ("not opened"
is an empty result) is not modelled here; the claim concerns the filter. -/
def getOpenedFiles (vault clientRoot : Str) (results : List OpenedJson) :
    List FileStatusM :=
  results.filterMap (fun item =>
    if startsWithJS
        (lowerStr (translateClientFile (jsOrStr item.clientFile [])
          (normSlash clientRoot)))
        (lowerStr (normSlash vault)) then
      some { depotFile := jsOrStr item.depotFile []
             clientFile := translateClientFile (jsOrStr item.clientFile [])
               (normSlash clientRoot)
             vaultPath := toVaultPathBridge vault
               (translateClientFile (jsOrStr item.clientFile [])
                 (normSlash clientRoot))
             action := jsOrStr item.action (("edit").toList)
             changelist := parseChangelistField item.change
             type := item.type
             rev := optNum item.rev
             haveRev := optNum item.haveRev }
    else none)

/-- C3: every record whose translated absolute path is not under the
working-copy root (compared case-insensitively after slash normalization) is
excluded from the list returned by `getOpenedFiles`; equivalently, every
returned `FileStatus` has its path under the working-copy root. -/
theorem getOpenedFiles_path_containment (vault clientRoot : Str)
    (results : List OpenedJson) :
    (∀ fs ∈ getOpenedFiles vault clientRoot results,
        startsWithJS (lowerStr (normSlash fs.clientFile))
          (lowerStr (normSlash vault)) = true)
    ∧ (∀ item ∈ results,
        startsWithJS
            (lowerStr (normSlash (translateClientFile
              (jsOrStr item.clientFile []) (normSlash clientRoot))))
            (lowerStr (normSlash vault)) = false →
        ∀ fs ∈ getOpenedFiles vault clientRoot results,
          ¬ fs.clientFile = translateClientFile (jsOrStr item.clientFile [])
            (normSlash clientRoot)) := by
  have main : ∀ fs ∈ getOpenedFiles vault clientRoot results,
      startsWithJS (lowerStr (normSlash fs.clientFile))
        (lowerStr (normSlash vault)) = true := by
    intro fs hfs
    simp only [getOpenedFiles, List.mem_filterMap] at hfs
    obtain ⟨item, _, hsome⟩ := hfs
    by_cases hcond : startsWithJS
        (lowerStr (translateClientFile (jsOrStr item.clientFile [])
          (normSlash clientRoot)))
        (lowerStr (normSlash vault)) = true
    · rw [if_pos hcond] at hsome
      have hcf : fs.clientFile = translateClientFile (jsOrStr item.clientFile [])
          (normSlash clientRoot) := by
        simp only [Option.some.injEq] at hsome
        rw [← hsome]
      rw [hcf]
      exact startsWithJS_lower_norm _ _ (lowerStr_normSlash_no_backslash vault) hcond
    · rw [if_neg hcond] at hsome
      exact absurd hsome (by simp)
  refine ⟨main, ?_⟩
  intro item _ hfail fs hfs heq
  have h1 := main fs hfs
  rw [heq, hfail] at h1
  exact absurd h1 (by simp)

/-- C3 witness: the containment theorem applied to a concrete query result
with one record under the root. -/
theorem getOpenedFiles_path_containment_witness :
    startsWithJS (lowerStr (normSlash (("/v/a.md").toList)))
      (lowerStr (normSlash (("/v").toList))) = true :=
  (getOpenedFiles_path_containment (("/v").toList) (("/v").toList)
      [⟨some (("//depot/a.md").toList), some (("//cl/a.md").toList),
        none, none, none, none, none⟩]).1
    ⟨("//depot/a.md").toList, ("/v/a.md").toList, ("a.md").toList,
      ("edit").toList, CLId.default, none, none, none⟩
    (by decide)

/-!
Pending changelists (`P4Manager.getPendingChangelists`, p4Manager.ts 354-393):
numbered records with a positive `change` are kept and mapped, and the
synthesized default changelist is unshifted onto the front of the list.
-/

/-- Record shape of a `p4 changes -s pending` JSON line (p4Manager.ts
355-362). -/
structure ChangeJson : Type where
  change : Option Str
  desc : Option Str
  user : Option Str
  client : Option Str
  status : Option Str
  time : Option Str
deriving DecidableEq

/-- Normalized changelist (`P4Changelist` of types.ts). -/
structure ChangelistM : Type where
  change : CLId
  description : Str
  user : Str
  client : Str
  status : Str
  date : Option Str
deriving DecidableEq

/-- The synthesized default changelist (p4Manager.ts 384-390). -/
def defaultChangelist (userName clientName : Str) : ChangelistM :=
  { change := CLId.default
    description := ("Default changelist").toList
    user := userName
    client := clientName
    status := ("pending").toList
    date := none }

/-- Embedding of `P4Manager.getPendingChangelists` (p4Manager.ts 354-393) as
a function of the user and client names from `p4 info` and the records
returned by the backend query. -/
def getPendingChangelists (userName clientName : Str)
    (results : List ChangeJson) : List ChangelistM :=
  defaultChangelist userName clientName ::
    (results.filter (fun item =>
        jsTruthy item.change &&
          match parseIntJS (jsOrStr item.change []) with
          | some n => decide (0 < n)
          | none => false)).map
      (fun item =>
        { change := CLId.num (((item.change.map parseIntJS).join).getD 0)
          description := trimStr (jsOrStr item.desc [])
          user := jsOrStr item.user []
          client := jsOrStr item.client []
          status := ("pending").toList
          date := item.time })

/-- C2: every list returned by `getPendingChangelists` contains the
synthesized default changelist exactly once, and as its first element, for
every sequence of records returned by the backend. -/
theorem getPendingChangelists_default_first (userName clientName : Str)
    (results : List ChangeJson) :
    (getPendingChangelists userName clientName results).head?
      = some (defaultChangelist userName clientName)
    ∧ ((getPendingChangelists userName clientName results).countP
        (fun c => c.change = CLId.default)) = 1 := by
  constructor
  · rfl
  · unfold getPendingChangelists
    rw [List.countP_cons]
    have hz : ((results.filter (fun item =>
        jsTruthy item.change &&
          match parseIntJS (jsOrStr item.change []) with
          | some n => decide (0 < n)
          | none => false)).map
      (fun item =>
        { change := CLId.num (((item.change.map parseIntJS).join).getD 0)
          description := trimStr (jsOrStr item.desc [])
          user := jsOrStr item.user []
          client := jsOrStr item.client []
          status := ("pending").toList
          date := item.time : ChangelistM })).countP
        (fun c => c.change = CLId.default) = 0 := by
      rw [List.countP_eq_zero]
      intro c hc
      simp only [List.mem_map] at hc
      obtain ⟨item, _, hitem⟩ := hc
      rw [← hitem]
      simp
    rw [hz]
    simp [defaultChangelist]

/-!
Submit (`P4Manager.submit`, p4Manager.ts 700-718): submitting the default
changelist demands a (truthy) description and throws locally before any
external process is spawned; a numbered changelist is submitted with
`submit -c <n>` and never requires a description.  The embedding returns the
argument vector handed to `runP4Json` on success, so a local `Except.error`
means no process was spawned.
-/

/-- Embedding of `P4Manager.submit` up to the external invocation: the value
is the argument list passed to `runP4Json`, the error is the locally thrown
validation error. -/
def submitArgs (changelist : CLId) (description : Option Str) :
    Except Str (List Str) :=
  match changelist with
  | CLId.default =>
    if jsTruthy description then
      Except.ok [("submit").toList, ("-d").toList,
        '"' :: (description.getD []) ++ ['"']]
    else
      Except.error (("Description is required for default changelist").toList)
  | CLId.num n =>
    Except.ok [("submit").toList, ("-c").toList, (toString n).toList]

/-- C5: submitting the default changelist with no description (or the empty,
falsy description) fails with the local validation error and no argument
vector is ever produced for the external tool; a numbered changelist is
submitted without any description requirement. -/
theorem submit_default_requires_description :
    submitArgs CLId.default none
        = Except.error (("Description is required for default changelist").toList)
    ∧ submitArgs CLId.default (some [])
        = Except.error (("Description is required for default changelist").toList)
    ∧ ∀ (n : Int) (d : Option Str),
        submitArgs (CLId.num n) d
          = Except.ok [("submit").toList, ("-c").toList, (toString n).toList] := by
  refine ⟨rfl, rfl, ?_⟩
  intro n d
  rfl

/-!
Conflict resolution with accept-merged (`P4Manager.resolve`, p4Manager.ts
1309-1345): the `accept-merged` branch sets `plugin.isResolvingMerge` before
writing the caller-supplied merged content, runs `p4 resolve -ae`, and clears
the flag in a `finally` block, so the flag is `true` exactly while the write
and the resolve sub-command run and is `false` afterwards even when either
step throws.
-/

/-- Observable outcome of the `accept-merged` branch of `resolve`.  The two
`flagDuring*` fields record the value of `isResolvingMerge` at the moment the
merged-content write and the `p4 resolve -ae` invocation are performed
(`none` when the step is not reached), and `finalFlag` is the value of the
flag after the `finally` block. -/
structure ResolveOutcome : Type where
  result : Except Str Unit
  flagDuringWrite : Option Bool
  flagDuringResolveCmd : Option Bool
  finalFlag : Bool

/-- Embedding of the `accept-merged` branch of `P4Manager.resolve`
(p4Manager.ts 1323-1338).  `initFlag` is the value of `isResolvingMerge`
before the call; `writeResult` and `cmdResult` are the outcomes of
`vault.adapter.write` and of the `p4 resolve -ae` invocation.  Exceptions
propagate after the `finally` block has cleared the flag. -/
def resolveAcceptMerged (initFlag : Bool) (mergedContent : Option Str)
    (writeResult cmdResult : Except Str Unit) : ResolveOutcome :=
  match initFlag, mergedContent with
  | _, some _ =>
    match writeResult with
    | Except.error e =>
      { result := Except.error e, flagDuringWrite := some true
        flagDuringResolveCmd := none, finalFlag := false }
    | Except.ok _ =>
      match cmdResult with
      | Except.error e =>
        { result := Except.error e, flagDuringWrite := some true
          flagDuringResolveCmd := some true, finalFlag := false }
      | Except.ok _ =>
        { result := Except.ok (), flagDuringWrite := some true
          flagDuringResolveCmd := some true, finalFlag := false }
  | _, none =>
    match cmdResult with
    | Except.error e =>
      { result := Except.error e, flagDuringWrite := none
        flagDuringResolveCmd := some true, finalFlag := false }
    | Except.ok _ =>
      { result := Except.ok (), flagDuringWrite := none
        flagDuringResolveCmd := some true, finalFlag := false }

/-- C9: after every `resolve(filePath, "accept-merged", mergedContent)` call
the `isResolvingMerge` suppression flag is `false` again, whether the
merged-content write and the resolve sub-command succeed or throw; and the
flag is `true` at the write step and at the resolve invocation whenever they
run, so the write-block handler is never permanently disabled. -/
theorem resolveAcceptMerged_restores_flag (initFlag : Bool)
    (mergedContent : Option Str) (writeResult cmdResult : Except Str Unit) :
    (resolveAcceptMerged initFlag mergedContent writeResult cmdResult).finalFlag
        = false
    ∧ ¬ (resolveAcceptMerged initFlag mergedContent writeResult
          cmdResult).flagDuringWrite = some false
    ∧ ¬ (resolveAcceptMerged initFlag mergedContent writeResult
          cmdResult).flagDuringResolveCmd = some false
    ∧ (mergedContent.isSome = true → writeResult.isOk = true →
        (resolveAcceptMerged initFlag mergedContent writeResult
          cmdResult).flagDuringWrite = some true
        ∧ (resolveAcceptMerged initFlag mergedContent writeResult
            cmdResult).flagDuringResolveCmd = some true) := by
  cases mergedContent with
  | some m =>
    cases writeResult with
    | error e =>
      cases cmdResult <;> simp [resolveAcceptMerged, Except.isOk, Except.toBool]
    | ok u => cases cmdResult <;> simp [resolveAcceptMerged]
  | none =>
    cases writeResult with
    | error e => cases cmdResult <;> simp [resolveAcceptMerged]
    | ok u => cases cmdResult <;> simp [resolveAcceptMerged]

/-- C9 witness: the flag-restoration theorem applied at a concrete call whose
resolve sub-command throws. -/
theorem resolveAcceptMerged_restores_flag_witness :
    (resolveAcceptMerged false (some (("merged").toList)) (Except.ok ())
        (Except.error (("boom").toList))).finalFlag = false
    ∧ (resolveAcceptMerged false (some (("merged").toList)) (Except.ok ())
        (Except.error (("boom").toList))).flagDuringWrite = some true
    ∧ (resolveAcceptMerged false (some (("merged").toList)) (Except.ok ())
        (Except.error (("boom").toList))).flagDuringResolveCmd = some true := by
  have h := resolveAcceptMerged_restores_flag false (some (("merged").toList))
    (Except.ok ()) (Except.error (("boom").toList))
  exact ⟨h.1, (h.2.2.2 (by decide) (by decide)).1, (h.2.2.2 (by decide) (by decide)).2⟩

/-!
Have-files query (`P4Manager.getHaveFiles`, p4Manager.ts 811-862) and the
depot cache gate (`isFileInDepotCache`, blameGutter.ts/main 1276-1287).  The
whole body of `getHaveFiles` is wrapped in a `try` whose `catch` only logs,
so every tool failure (of the `p4 have` query, run first, or of `p4 info`,
run second) yields the empty set.
-/

/-- Record shape of a `p4 have` JSON line (p4Manager.ts 812-816). -/
structure HaveJson : Type where
  depotFile : Option Str
  clientFile : Option Str
  haveRev : Option Str
deriving DecidableEq

/-- Embedding of `P4Manager.getHaveFiles` (p4Manager.ts 811-862).
`haveQuery` is the outcome of the `p4 have` invocation and `infoQuery` the
outcome of the subsequent `p4 info` (run only when the first succeeds);
`clientRoot` is the root reported by the info query.  The JavaScript `Set`
is embedded as a duplicate-free insertion list. -/
def getHaveFiles (vault clientRoot : Str)
    (haveQuery : Except Str (List HaveJson)) (infoQuery : Except Str Unit) :
    List Str :=
  match haveQuery with
  | Except.error _ => []
  | Except.ok results =>
    match infoQuery with
    | Except.error _ => []
    | Except.ok _ =>
      results.foldl (fun acc item =>
        let normalizedPath := lowerStr (normSlash
          (translateClientFile (jsOrStr item.clientFile [])
            (normSlash clientRoot)))
        if startsWithJS normalizedPath (lowerStr (normSlash vault)) then
          let vaultRelative :=
            (normalizedPath.drop (lowerStr (normSlash vault)).length).dropWhile
              (fun c => c = '/')
          if acc.contains vaultRelative then acc else acc ++ [vaultRelative]
        else acc) []

/-- Guard-owned caches of the plugin class (main, blameGutter.ts 245-259):
only the fields read by `handleFileModify` and the cache predicates are
embedded. -/
structure GuardState : Type where
  isRevertingFile : Bool
  isResolvingMerge : Bool
  cachedDepotFiles : List Str
  cachedOpenedFiles : List Str
deriving DecidableEq

/-- Embedding of `isFileInDepotCache` (blameGutter.ts/main 1276-1287):
exact hit, slash-normalized hit, or case-insensitive scan. -/
def isFileInDepotCache (st : GuardState) (filePath : Str) : Bool :=
  st.cachedDepotFiles.contains filePath ||
    st.cachedDepotFiles.contains (normSlash filePath) ||
    st.cachedDepotFiles.any
      (fun cachedPath => lowerStr cachedPath = lowerStr (normSlash filePath))

/-- C10: `getHaveFiles` is total over tool failures: a failing `p4 have`
query or a failing `p4 info` lookup yields the empty set rather than an
error, and with an empty tracked-path cache the write-block gate
`isFileInDepotCache` treats every file as untracked. -/
theorem getHaveFiles_total_on_error (vault clientRoot : Str) (e : Str)
    (infoQuery : Except Str Unit) (results : List HaveJson)
    (b1 b2 : Bool) (opened : List Str) (p : Str) :
    getHaveFiles vault clientRoot (Except.error e) infoQuery = []
    ∧ getHaveFiles vault clientRoot (Except.ok results) (Except.error e) = []
    ∧ isFileInDepotCache
        { isRevertingFile := b1, isResolvingMerge := b2
          cachedDepotFiles := [], cachedOpenedFiles := opened } p = false := by
  refine ⟨rfl, rfl, ?_⟩
  simp [isFileInDepotCache]

/-!
Conflict listing (`P4Manager.getConflicts`, p4Manager.ts 1190-1254).  The
`catch` clause returns an empty list when the tool message contains
"No file(s) to resolve" (either capitalization), and for every other error
it only logs and falls through to `return conflicts` — the accumulated list,
still empty because the failing awaits precede the loop.  So no tool error
ever propagates out of `getConflicts`.
-/

/-- Record shape of a `p4 resolve -n` JSON line (p4Manager.ts 1191-1198). -/
structure ResolveJson : Type where
  clientFile : Option Str
  fromFile : Option Str
  startFromRev : Option Str
  endFromRev : Option Str
  baseRev : Option Str
  resolveType : Option Str
deriving DecidableEq

/-- Conflict type of a `P4ConflictFile` (types.ts). -/
inductive ConflictTypeM : Type
  | content : ConflictTypeM
  | action : ConflictTypeM
deriving DecidableEq

/-- Normalized conflict record (`P4ConflictFile` of types.ts); the revision
fields keep `parseInt`'s possible `NaN` as an inner `none`. -/
structure ConflictM : Type where
  depotFile : Str
  clientFile : Str
  vaultPath : Str
  baseRev : Option Int
  theirRev : Option Int
  conflictType : ConflictTypeM
  fromFile : Option Str
deriving DecidableEq

/-- Embedding of `P4Manager.getConflicts` (p4Manager.ts 1190-1254).  `query`
is the combined outcome of the awaited steps inside the `try` (the
`p4 resolve -n` invocation and the `p4 info` lookup); the return type is
`Except` to make it visible that no branch propagates an error. -/
def getConflicts (vault clientRoot : Str)
    (query : Except Str (List ResolveJson)) :
    Except Str (List ConflictM) :=
  match query with
  | Except.error message =>
    if jsIncludes message (("No file(s) to resolve").toList) ||
        jsIncludes message (("no file(s) to resolve").toList) then
      Except.ok []
    else
      Except.ok []
  | Except.ok results =>
    Except.ok (results.filterMap (fun item =>
      if startsWithJS
          (lowerStr (translateClientFile (jsOrStr item.clientFile [])
            (normSlash clientRoot)))
          (lowerStr (normSlash vault)) then
        some { depotFile := jsOrStr item.fromFile
                 (jsOrStr item.clientFile [])
               clientFile := translateClientFile (jsOrStr item.clientFile [])
                 (normSlash clientRoot)
               vaultPath := toVaultPathBridge vault
                 (translateClientFile (jsOrStr item.clientFile [])
                   (normSlash clientRoot))
               baseRev := parseIntJS (jsOrStr item.baseRev (('0') :: []))
               theirRev := parseIntJS (jsOrStr item.endFromRev (('0') :: []))
               conflictType :=
                 if item.resolveType = some (("content").toList) then
                   ConflictTypeM.content
                 else ConflictTypeM.action
               fromFile := item.fromFile }
      else none))

/-- C4 (amended): `getConflicts` yields an empty successful result for every
tool error raised during the conflict query — the benign
"No file(s) to resolve" report and every other error alike; no tool error
propagates to the caller. -/
theorem getConflicts_error_yields_empty (vault clientRoot : Str) (e : Str) :
    getConflicts vault clientRoot (Except.error e) = Except.ok [] := by
  unfold getConflicts
  by_cases h : (jsIncludes e (("No file(s) to resolve").toList) ||
      jsIncludes e (("no file(s) to resolve").toList)) = true
  · simp [h]
  · simp at h
    simp [h]

/-- C4 counterexample: a concrete tool error that does not contain the
benign "no file(s) to resolve" text is swallowed — `getConflicts` returns
the empty ok-result instead of propagating the message. -/
theorem getConflicts_swallows_other_errors :
    jsIncludes (("connect to server failed").toList)
        (("No file(s) to resolve").toList) = false
    ∧ jsIncludes (("connect to server failed").toList)
        (("no file(s) to resolve").toList) = false
    ∧ getConflicts (("/v").toList) (("/v").toList)
        (Except.error (("connect to server failed").toList)) = Except.ok []
    ∧ ¬ getConflicts (("/v").toList) (("/v").toList)
          (Except.error (("connect to server failed").toList))
        = Except.error (("connect to server failed").toList) := by
  refine ⟨by decide, by decide, rfl, ?_⟩
  intro h
  exact Except.noConfusion
    ((rfl : getConflicts (("/v").toList) (("/v").toList)
        (Except.error (("connect to server failed").toList))
      = Except.ok []).symm.trans h)

/-!
Write-block guard (`handleFileModify`, blameGutter.ts/main 1074-1108).  The
handler returns immediately while `isRevertingFile` or `isResolvingMerge` is
set, or when the file is not in the depot cache, or when it is in the
opened-files cache.  Otherwise it fetches the depot content
(`getDepotContent`, which is total: p4Manager.ts 733-740 catches internally
and returns `null`), and only when that content is non-null writes it back
and shows one blocking notice; a throwing restore write is caught and shows
one notice instead; a `null` depot content produces neither a restore nor a
notice.  The `finally` clears `isRevertingFile`.
-/

/-- Embedding of `isFileOpenedInCache` (blameGutter.ts/main 1114-1127):
exact normalized match or the partial suffix matches on either side. -/
def isFileOpenedInCache (st : GuardState) (filePath : Str) : Bool :=
  st.cachedOpenedFiles.any (fun openedVaultPath =>
    lowerStr (normSlash openedVaultPath) = lowerStr (normSlash filePath) ||
      endsWithJS (lowerStr (normSlash filePath))
        ('/' :: lowerStr (normSlash openedVaultPath)) ||
      endsWithJS (lowerStr (normSlash openedVaultPath))
        ('/' :: lowerStr (normSlash filePath)))

/-- Observable outcome of one `handleFileModify` run: the content written
back over the modified file (if any), the number of user-visible notices
shown, and the final value of `isRevertingFile`. -/
structure ModifyOutcome : Type where
  restored : Option Str
  notices : Nat
  finalReverting : Bool
deriving DecidableEq

/-- Embedding of `handleFileModify` (blameGutter.ts/main 1074-1108).
`depotContent` is the (total) result of `getDepotContent` — `none` when the
`p4 print` failed — and `writeOk` tells whether the restoring
`vault.adapter.write` succeeds or throws. -/
def handleFileModify (st : GuardState) (filePath : Str)
    (depotContent : Option Str) (writeOk : Bool) : ModifyOutcome :=
  if st.isRevertingFile || st.isResolvingMerge then
    { restored := none, notices := 0, finalReverting := st.isRevertingFile }
  else if !(isFileInDepotCache st filePath) then
    { restored := none, notices := 0, finalReverting := st.isRevertingFile }
  else if isFileOpenedInCache st filePath then
    { restored := none, notices := 0, finalReverting := st.isRevertingFile }
  else
    match depotContent with
    | some c =>
      if writeOk then { restored := some c, notices := 1, finalReverting := false }
      else { restored := none, notices := 1, finalReverting := false }
    | none => { restored := none, notices := 0, finalReverting := false }

/-- C1 (amended): under the guard conditions (neither flag set, file in the
depot cache, vault path not in the opened-files cache) a blocked write is
restored to the fetched depot content and exactly one notice is shown
whenever the depot-content fetch succeeds — also exactly one notice when the
restore write itself throws; when the depot-content fetch fails (returns
null) the handler performs no restore and shows no notice; and while
`isResolvingMerge` is set the handler does nothing at all. -/
theorem handleFileModify_blocks (st : GuardState) (filePath : Str) (c : Str)
    (writeOk : Bool)
    (h1 : st.isRevertingFile = false) (h2 : st.isResolvingMerge = false)
    (h3 : isFileInDepotCache st filePath = true)
    (h4 : isFileOpenedInCache st filePath = false) :
    (handleFileModify st filePath (some c) writeOk).notices = 1
    ∧ (writeOk = true →
        (handleFileModify st filePath (some c) writeOk).restored = some c)
    ∧ handleFileModify st filePath none writeOk
        = { restored := none, notices := 0, finalReverting := false }
    ∧ (∀ (st2 : GuardState) (dc : Option Str) (w : Bool),
        st2.isResolvingMerge = true →
        handleFileModify st2 filePath dc w
          = { restored := none, notices := 0
              finalReverting := st2.isRevertingFile }) := by
  refine ⟨?_, ?_, ?_, ?_⟩
  · cases writeOk <;> simp [handleFileModify, h1, h2, h3, h4]
  · intro hw
    subst hw
    simp [handleFileModify, h1, h2, h3, h4]
  · simp [handleFileModify, h1, h2, h3, h4]
  · intro st2 dc w hflag
    simp [handleFileModify, hflag]

/-- C1 witness: the blocking theorem applied at a concrete state with one
tracked, unopened file. -/
theorem handleFileModify_blocks_witness :
    (handleFileModify
        { isRevertingFile := false, isResolvingMerge := false
          cachedDepotFiles := [("notes/a.md").toList], cachedOpenedFiles := [] }
        (("notes/a.md").toList) (some (("depot text").toList)) true).notices = 1 :=
  (handleFileModify_blocks
      { isRevertingFile := false, isResolvingMerge := false
        cachedDepotFiles := [("notes/a.md").toList], cachedOpenedFiles := [] }
      (("notes/a.md").toList) (("depot text").toList) true
      rfl rfl (by decide) (by decide)).1

/-- C1 counterexample: a modification event on a tracked, unopened file with
both flags clear for which the depot-content fetch fails (`getDepotContent`
returns `null`): the handler performs no restore and emits no notice, while
the claim demands a restore and exactly one notice for every such event. -/
theorem handleFileModify_no_restore_on_failed_fetch :
    (handleFileModify
        { isRevertingFile := false, isResolvingMerge := false
          cachedDepotFiles := [("notes/a.md").toList], cachedOpenedFiles := [] }
        (("notes/a.md").toList) none true)
      = { restored := none, notices := 0, finalReverting := false }
    ∧ isFileInDepotCache
        { isRevertingFile := false, isResolvingMerge := false
          cachedDepotFiles := [("notes/a.md").toList], cachedOpenedFiles := [] }
        (("notes/a.md").toList) = true
    ∧ isFileOpenedInCache
        { isRevertingFile := false, isResolvingMerge := false
          cachedDepotFiles := [("notes/a.md").toList], cachedOpenedFiles := [] }
        (("notes/a.md").toList) = false := by
  refine ⟨?_, by decide, by decide⟩
  decide

/-!
Annotate parser (`P4Manager.annotate`, p4Manager.ts 867-993).  Carriage
returns are removed, the output is split on newlines, blank lines and lines
starting with the depot header `//` are skipped, and each remaining line is
tried against six regular expressions in order, the first match winning; a
line matching none is dropped without incrementing the emitted line counter.
The regexes are anchored and each quantifier is forced (a `\S+` followed by
`\s+` must cover the whole non-whitespace run, a `\s+` before a `\d`-headed
date must cover the whole whitespace run, a `\d+` before `:` or `-` must
cover the whole digit run), so each one is embedded below as a deterministic
greedy parser; only `fmt3`'s `(\S+):` needs the regex's longest-first
backtracking, embedded as the search for the last colon inside the run.
-/

/-- Fields extracted from one annotate output line, before numbering. -/
structure AnnotateFields : Type where
  changelist : Nat
  user : Str
  date : Option Str
  content : Str
deriving DecidableEq

/-- One parsed blame line (`P4BlameLine` of types.ts). -/
structure BlameLineM : Type where
  lineNumber : Nat
  changelist : Nat
  user : Str
  date : Option Str
  content : Str
deriving DecidableEq

/-- Match a ten-character date `\d{4}X\d{2}X\d{2}` with separators drawn
from `seps`, returning the date and the remainder. -/
def matchDate (seps : List Char) (s : Str) : Option (Str × Str) :=
  match s with
  | y1 :: y2 :: y3 :: y4 :: a :: m1 :: m2 :: b :: d1 :: d2 :: rest =>
    if y1.isDigit && y2.isDigit && y3.isDigit && y4.isDigit &&
        seps.contains a && m1.isDigit && m2.isDigit &&
        seps.contains b && d1.isDigit && d2.isDigit then
      some ([y1, y2, y3, y4, a, m1, m2, b, d1, d2], rest)
    else none
  | _ => none

/-- Main annotate format (p4Manager.ts 894-907):
`/^(\d+):\s*(\S+)\s+(\d{4}[\/\-]\d{2}[\/\-]\d{2})(.*)$/` with the content
taken from the tail after stripping leading whitespace and colons and
trimming. -/
def fmtMain (line : Str) : Option AnnotateFields :=
  let ds := line.takeWhile Char.isDigit
  if ds.isEmpty then none
  else
    match line.dropWhile Char.isDigit with
    | ':' :: afterColon =>
      let afterWs := afterColon.dropWhile jsWs
      let user := afterWs.takeWhile (fun c => !jsWs c)
      let afterUser := afterWs.dropWhile (fun c => !jsWs c)
      if user.isEmpty then none
      else if afterUser.isEmpty then none
      else
        match matchDate ['/', '-'] (afterUser.dropWhile jsWs) with
        | some (date, rest) =>
          some { changelist := digitsToNat ds, user := user, date := some date
                 content := trimStr (rest.dropWhile (fun c => jsWs c || c = ':')) }
        | none => none
    | _ => none

/-- Annotate format 2 (p4Manager.ts 915-926):
`/^(\d+):\s*(\S+)\s+(\d{4}\/\d{2}\/\d{2}):\s*(.*)$/`, content trimmed. -/
def fmt2 (line : Str) : Option AnnotateFields :=
  let ds := line.takeWhile Char.isDigit
  if ds.isEmpty then none
  else
    match line.dropWhile Char.isDigit with
    | ':' :: afterColon =>
      let afterWs := afterColon.dropWhile jsWs
      let user := afterWs.takeWhile (fun c => !jsWs c)
      let afterUser := afterWs.dropWhile (fun c => !jsWs c)
      if user.isEmpty then none
      else if afterUser.isEmpty then none
      else
        match matchDate ['/'] (afterUser.dropWhile jsWs) with
        | some (date, rest) =>
          match rest with
          | ':' :: r2 =>
            some { changelist := digitsToNat ds, user := user
                   date := some date, content := trimStr (r2.dropWhile jsWs) }
          | _ => none
        | none => none
    | _ => none

/-- Index of the last colon strictly inside the run that can terminate a
nonempty `(\S+)` match (regex backtracking tries the longest user first). -/
def lastColonIdx (run : Str) : Option Nat :=
  (List.range run.length).reverse.find?
    (fun i => decide (1 ≤ i) && decide (run.getD i ' ' = ':'))

/-- Annotate format 3 (p4Manager.ts 929-939):
`/^(\d+):\s*(\S+):\s*(.*)$/`, no date, content trimmed. -/
def fmt3 (line : Str) : Option AnnotateFields :=
  let ds := line.takeWhile Char.isDigit
  if ds.isEmpty then none
  else
    match line.dropWhile Char.isDigit with
    | ':' :: afterColon =>
      let afterWs := afterColon.dropWhile jsWs
      let run := afterWs.takeWhile (fun c => !jsWs c)
      match lastColonIdx run with
      | some i =>
        some { changelist := digitsToNat ds, user := run.take i, date := none
               content := trimStr ((afterWs.drop (i + 1)).dropWhile jsWs) }
      | none => none
    | _ => none

/-- Consume the optional single whitespace of a `\s?(.*)$` tail. -/
def dropOneWs (s : Str) : Str :=
  match s with
  | c :: t => if jsWs c then t else c :: t
  | [] => []

/-- Annotate format 4 (p4Manager.ts 942-952):
`/^(\d+)\s*-\s*(\S+)\s+(\d{4}\/\d{2}\/\d{2}):\s?(.*)$/`, content untrimmed. -/
def fmt4 (line : Str) : Option AnnotateFields :=
  let ds := line.takeWhile Char.isDigit
  if ds.isEmpty then none
  else
    match (line.dropWhile Char.isDigit).dropWhile jsWs with
    | '-' :: afterDash =>
      let afterWs := afterDash.dropWhile jsWs
      let user := afterWs.takeWhile (fun c => !jsWs c)
      let afterUser := afterWs.dropWhile (fun c => !jsWs c)
      if user.isEmpty then none
      else if afterUser.isEmpty then none
      else
        match matchDate ['/'] (afterUser.dropWhile jsWs) with
        | some (date, rest) =>
          match rest with
          | ':' :: r2 =>
            some { changelist := digitsToNat ds, user := user
                   date := some date, content := dropOneWs r2 }
          | _ => none
        | none => none
    | _ => none

/-- Annotate format 5 (p4Manager.ts 956-966):
`/^(\d+):\s*(.*)$/`, user `"unknown"`, content untrimmed. -/
def fmt5 (line : Str) : Option AnnotateFields :=
  let ds := line.takeWhile Char.isDigit
  if ds.isEmpty then none
  else
    match line.dropWhile Char.isDigit with
    | ':' :: afterColon =>
      some { changelist := digitsToNat ds, user := ("unknown").toList
             date := none, content := afterColon.dropWhile jsWs }
    | _ => none

/-- Annotate format 6 (p4Manager.ts 969-980):
`/^(\S+)\s+(\d+)\s+(\d{4}\/\d{2}\/\d{2}):\s?(.*)$/`, content untrimmed. -/
def fmt6 (line : Str) : Option AnnotateFields :=
  let user := line.takeWhile (fun c => !jsWs c)
  let afterUser := line.dropWhile (fun c => !jsWs c)
  if user.isEmpty then none
  else if afterUser.isEmpty then none
  else
    let afterWs := afterUser.dropWhile jsWs
    let ds := afterWs.takeWhile Char.isDigit
    let afterDs := afterWs.dropWhile Char.isDigit
    if ds.isEmpty then none
    else
      match afterDs with
      | c :: _ =>
        if !jsWs c then none
        else
          match matchDate ['/'] (afterDs.dropWhile jsWs) with
          | some (date, rest) =>
            match rest with
            | ':' :: r2 =>
              some { changelist := digitsToNat ds, user := user
                     date := some date, content := dropOneWs r2 }
            | _ => none
          | none => none
      | [] => none

/-- The ordered first-match-wins cascade over the six formats (p4Manager.ts
883-984). -/
def parseAnnotateLine (line : Str) : Option AnnotateFields :=
  fmtMain line <|> fmt2 line <|> fmt3 line <|> fmt4 line <|> fmt5 line <|>
    fmt6 line

/-- Embedding of the parsing loop of `P4Manager.annotate` (p4Manager.ts
876-984): strip carriage returns, split on newlines, skip blank lines and
`//` header lines, number only the lines some format matches. -/
def annotateParse (output : Str) : List BlameLineM :=
  ((((output.filter (fun c => !(c = '\r'))).splitOn '\n').foldl
    (fun (acc : Nat × List BlameLineM) line =>
      if line.isEmpty || (trimStr line).isEmpty then acc
      else if startsWithJS line ['/', '/'] then acc
      else
        match parseAnnotateLine line with
        | some f =>
          (acc.1 + 1, acc.2 ++ [{ lineNumber := acc.1 + 1
                                  changelist := f.changelist, user := f.user
                                  date := f.date, content := f.content }])
        | none => acc)
    (0, [])).2)

/-- C7 (amended): the annotate parser maps the output line
`"48: mord4r 2025/11/08  - fixed bug"` to a blame line with changelist 48,
user `"mord4r"`, date `"2025/11/08"` and content `"- fixed bug"` — the
leading dash of the line content survives, because the post-date cleanup
strips only whitespace and colons. -/
theorem annotate_scenario_line :
    annotateParse (("48: mord4r 2025/11/08  - fixed bug").toList)
      = [{ lineNumber := 1, changelist := 48, user := ("mord4r").toList
           date := some (("2025/11/08").toList)
           content := ("- fixed bug").toList }] := by
  decide

/-- C7 counterexample: on the scenario line the parsed content is
`"- fixed bug"`, not the `"fixed bug"` the claim states. -/
theorem annotate_scenario_line_keeps_dash :
    (annotateParse (("48: mord4r 2025/11/08  - fixed bug").toList)).map
        (fun b => b.content) = [("- fixed bug").toList]
    ∧ ¬ (annotateParse (("48: mord4r 2025/11/08  - fixed bug").toList)).map
        (fun b => b.content) = [("fixed bug").toList] := by
  exact ⟨by decide, by decide⟩

/-!
Blame cache concurrency (`P4BlameProvider.getBlame` / `fetchBlame`,
blameProvider/constants.ts 162-244).  The host is single-threaded and
cooperative: a `getBlame(path)` call runs synchronously through the cache
check and the `pendingFetches` check, and `fetchBlame` then suspends at
`await isFileInDepot(...)` BEFORE executing `pendingFetches.add(filePath)`;
the next suspension is the `await annotate(...)` itself, and the final
segment (cache store, waiter callbacks, `pendingFetches.delete` in the
`finally`) runs after the fetch resolves.  The model below is that
interleaving semantics for two tasks calling `getBlame` on the same path
with a cold cache, `p4Ready`, a text file that is in the depot, and a shared
fetch outcome (`some r` success, `none` failure): each scheduler step runs
one task's next atomic segment.  The awaits inside `fetchDescriptions` are
folded into the final segment, which does not change any of the state the
segments observe.
-/

/-- Program counter of one `getBlame` task: not yet issued, suspended at the
`isFileInDepot` await, suspended at the `annotate` await, parked as a waiter
callback, or finished. -/
inductive TaskPC : Type
  | start : TaskPC
  | afterDepot : TaskPC
  | afterAnnot : TaskPC
  | parked : TaskPC
  | done : TaskPC
deriving DecidableEq

/-- Shared state of the provider plus the two tasks (`false` and `true`).
`res*` is `none` while the task is unfinished, and `some v` when its
`getBlame` returned `v` (itself an `Option`: `none` is the `null` result). -/
structure BlameSys (α : Type) : Type where
  cache : Option α
  pending : Bool
  waiting : List Bool
  annotateCalls : Nat
  pcA : TaskPC
  pcB : TaskPC
  resA : Option (Option α)
  resB : Option (Option α)
deriving DecidableEq

/-- Program counter of task `t`. -/
def BlameSys.getPc {α : Type} (s : BlameSys α) (t : Bool) : TaskPC :=
  if t then s.pcB else s.pcA

/-- Set the program counter of task `t`. -/
def BlameSys.setPc {α : Type} (s : BlameSys α) (t : Bool) (pc : TaskPC) :
    BlameSys α :=
  if t then { s with pcB := pc } else { s with pcA := pc }

/-- Record the return value of task `t`. -/
def BlameSys.setRes {α : Type} (s : BlameSys α) (t : Bool) (v : Option α) :
    BlameSys α :=
  if t then { s with resB := some v } else { s with resA := some v }

/-- Run the waiter callbacks (constants.ts 222-227 and 233-238): every
parked task in `waiting` receives the fetch outcome and finishes, and the
waiting list is cleared. -/
def BlameSys.deliver {α : Type} (s : BlameSys α) (v : Option α) : BlameSys α :=
  { s with
    resA := if s.waiting.contains false then some v else s.resA
    pcA := if s.waiting.contains false then TaskPC.done else s.pcA
    resB := if s.waiting.contains true then some v else s.resB
    pcB := if s.waiting.contains true then TaskPC.done else s.pcB
    waiting := [] }

/-- One scheduler step: run the next atomic segment of task `t`.
`fetchResult` is the outcome of the annotate fetch (`some r` success, `none`
failure). -/
def blameStep {α : Type} (fetchResult : Option α) (s : BlameSys α)
    (t : Bool) : BlameSys α :=
  match s.getPc t with
  | TaskPC.start =>
    match s.cache with
    | some r => (s.setRes t (some r)).setPc t TaskPC.done
    | none =>
      if s.pending then ({ s with waiting := s.waiting ++ [t] }).setPc t TaskPC.parked
      else s.setPc t TaskPC.afterDepot
  | TaskPC.afterDepot =>
    ({ s with pending := true
              annotateCalls := s.annotateCalls + 1 }).setPc t TaskPC.afterAnnot
  | TaskPC.afterAnnot =>
    ((({ s with
         cache := match fetchResult with
           | some _ => fetchResult
           | none => s.cache
         pending := false }).deliver fetchResult).setRes t fetchResult).setPc
      t TaskPC.done
  | TaskPC.parked => s
  | TaskPC.done => s

/-- Initial provider state: cold cache, nothing pending, nothing issued. -/
def blameInit (α : Type) : BlameSys α :=
  { cache := none, pending := false, waiting := [], annotateCalls := 0
    pcA := TaskPC.start, pcB := TaskPC.start, resA := none, resB := none }

/-- Run a schedule (a list of task ids, each running its next segment). -/
def blameRun {α : Type} (fetchResult : Option α) (sched : List Bool) :
    BlameSys α :=
  sched.foldl (blameStep fetchResult) (blameInit α)

/-- C6 (amended): when the second `getBlame(path)` call is issued after the
in-flight fetch has registered the path in `pendingFetches` — which happens
only once its `isFileInDepot` check has resolved — exactly one annotate
invocation occurs and both callers observe the same result: the fetch value
on success and `null` on failure. -/
theorem getBlame_dedup_after_pending {α : Type} (fetchResult : Option α) :
    (blameRun fetchResult [false, false, true, false]).annotateCalls = 1
    ∧ (blameRun fetchResult [false, false, true, false]).resA
        = some fetchResult
    ∧ (blameRun fetchResult [false, false, true, false]).resB
        = some fetchResult := by
  cases fetchResult <;> exact ⟨rfl, rfl, rfl⟩

/-- C6 witness: the deduplicating schedule at a concrete fetch result. -/
theorem getBlame_dedup_after_pending_witness :
    (blameRun (some 7) [false, false, true, false]).annotateCalls = 1
    ∧ (blameRun (some 7) [false, false, true, false]).resA = some (some 7)
    ∧ (blameRun (some 7) [false, false, true, false]).resB = some (some 7) :=
  getBlame_dedup_after_pending (some 7)

/-- C6 counterexample: a schedule in which the second `getBlame(path)` call
is issued while the first call's fetch is suspended at its `isFileInDepot`
await — before `pendingFetches.add` has run — performs TWO annotate
invocations, although the second call was issued before the first call's
fetch resolved; both callers were issued, both finished, and the claim's
"exactly one underlying annotate invocation" is violated. -/
theorem getBlame_duplicate_fetch_window :
    (blameRun (some 7) [false, true, false, true, false, true]).annotateCalls = 2
    ∧ (blameRun (some 7) [false, true, false, true, false, true]).resA
        = some (some 7)
    ∧ (blameRun (some 7) [false, true, false, true, false, true]).resB
        = some (some 7)
    ∧ ¬ (blameRun (some 7) [false, true, false, true, false, true]).annotateCalls
        = 1 := by
  exact ⟨by decide, by decide, by decide, by decide⟩
